import Mathlib

/-!
Verification of the bookly PDF-quiz application (src/bookly.py).

The Python source is shallowly embedded: pure helpers become Lean functions,
the spaCy analysis of a text is a `Doc` value passed as an explicit input
(the claims quantify over all analyses the model could return), the
`random` module's draws are passed as explicit seed arguments (`random.choice`
consumes one natural number, `random.sample` and `random.shuffle` consume one
natural number per element drawn), and the mutable GUI session of class
`PDFQuizApp` becomes an `AppState` record transformed by the event handlers.
-/

/-! ## Python string primitives used by bookly.py

All of them work on the character list of the string, so that every
definition reduces inside the kernel. -/

/-- Python `s.strip()`: drop leading and trailing whitespace. -/
def pyStrip (s : String) : String :=
  String.mk
    (((s.toList.dropWhile Char.isWhitespace).reverse.dropWhile
      Char.isWhitespace).reverse)

/-- Python substring scan: `pat in s` on the character lists.  An empty
pattern is contained in every string, as in Python. -/
def listContains (pat : List Char) : List Char → Bool
  | [] => pat.isEmpty
  | c :: cs => pat.isPrefixOf (c :: cs) || listContains pat cs

/-- Python `pat in s` (substring containment). -/
def strContains (s pat : String) : Bool :=
  listContains pat.toList s.toList

/-- Fuelled scanner for `replaceAll`; every step consumes at least one
character, so fuel equal to the input length always suffices. -/
def replaceAllFuel (pat rep : List Char) : Nat → List Char → List Char
  | 0, s => s
  | _ + 1, [] => []
  | fuel + 1, c :: cs =>
    if pat ≠ [] ∧ pat.isPrefixOf (c :: cs) then
      rep ++ replaceAllFuel pat rep fuel (cs.drop (pat.length - 1))
    else
      c :: replaceAllFuel pat rep fuel cs

/-- Python `str.replace` on character lists: scan left to right and replace
every non-overlapping occurrence of `pat` by `rep`.  Callers in bookly.py
only pass non-empty patterns (Python treats an empty pattern specially;
that case is never reached here). -/
def replaceAll (pat rep s : List Char) : List Char :=
  replaceAllFuel pat rep s.length s

/-- Python `s.replace(pat, rep)`. -/
def pyReplace (s pat rep : String) : String :=
  String.mk (replaceAll pat.toList rep.toList s.toList)

/-- Word scanner for `wordCount`; the flag records whether the scanner is
inside a word, so each maximal non-whitespace run is counted once. -/
def wordCountAux : Bool → List Char → Nat
  | _, [] => 0
  | inWord, c :: cs =>
    if Char.isWhitespace c then wordCountAux false cs
    else (if inWord then 0 else 1) + wordCountAux true cs

/-- Number of whitespace-separated words, Python `len(s.split())`. -/
def wordCount (s : String) : Nat :=
  wordCountAux false s.toList

/-- Digit accumulator for `pyInt?`. -/
def parseDigitsAux (acc : Nat) : List Char → Option Nat
  | [] => some acc
  | c :: cs =>
    if c.isDigit then parseDigitsAux (10 * acc + (c.toNat - 48)) cs else none

/-- Python `int(s)`: optional surrounding whitespace, optional single sign,
then one or more decimal digits; anything else raises `ValueError`,
modelled as `none`.  (Python additionally accepts underscore grouping and
non-ASCII digits; no caller of bookly.py relies on those.) -/
def pyInt? (s : String) : Option Int :=
  match (pyStrip s).toList with
  | [] => none
  | '-' :: cs =>
    match cs with
    | [] => none
    | _ :: _ => (parseDigitsAux 0 cs).map (fun n => -(n : Int))
  | '+' :: cs =>
    match cs with
    | [] => none
    | _ :: _ => (parseDigitsAux 0 cs).map (fun n => (n : Int))
  | cs => (parseDigitsAux 0 cs).map (fun n => (n : Int))

/-! ## The spaCy analysis, embedded as explicit data -/

/-- One spaCy named entity: its surface text and its `label_`. -/
structure Ent where
  text : String
  label : String
deriving DecidableEq, Repr

/-- One spaCy token: surface text, `pos_` tag, and the stop-word /
punctuation flags. -/
structure Token where
  text : String
  pos : String
  isStop : Bool
  isPunct : Bool
deriving DecidableEq, Repr

/-- A spaCy document: entities, tokens, and sentence texts in document
order. -/
structure Doc where
  ents : List Ent
  tokens : List Token
  sents : List String
deriving DecidableEq, Repr

/-- The question record returned by `generate_quiz_question`. -/
structure Question where
  question : String
  choices : List String
  answer : String
deriving DecidableEq, Repr

/-! ## Seeded models of the `random` module

`random.choice` is modelled by one seed reduced mod the list length;
`random.sample(l, k)` by `k` draws, each removing the drawn element
(sampling without replacement); `random.shuffle` by a full-length
sample, which is always a permutation. -/

/-- Draw `k` elements without replacement, the draw at countdown `k` being
indexed by `f k` mod the remaining population.  (Python's `random.sample`
raises when `k` exceeds the population; bookly.py only calls it with
`k = 3` on a population proved to have at least 3 elements, so that case
is unreachable and the model simply stops early.) -/
def sampleK {α : Type} (f : Nat → Nat) : Nat → List α → List α
  | 0, _ => []
  | _ + 1, [] => []
  | k + 1, x :: xs =>
    let i := f k % (x :: xs).length
    (x :: xs).get ⟨i, Nat.mod_lt _ (Nat.succ_pos _)⟩ ::
      sampleK f k ((x :: xs).eraseIdx i)

/-- Model of `random.shuffle`: a full-length sample without replacement,
i.e. a permutation of the input selected by the seed function. -/
def shuffleK {α : Type} (g : Nat → Nat) (l : List α) : List α :=
  sampleK g l.length l

/-! ## generate_quiz_question (src/bookly.py lines 69-118) -/

/-- The entity labels accepted by tier 1 of the candidate pool. -/
def entityLabels : List String :=
  ["PERSON", "GPE", "ORG", "PRODUCT", "LOC", "MONEY", "DATE", "TIME"]

/-- Tier 1: accepted named entities, deduplicated by trimmed text and
filtered to trimmed length > 1 (bookly.py line 79-80). -/
def entityCandidates (d : Doc) : List String :=
  (((d.ents.filter (fun e => decide (e.label ∈ entityLabels))).map
      (fun e => pyStrip e.text)).filter
    (fun t => decide (1 < t.length))).dedup

/-- Tier 2: tokens tagged NOUN which are not stop words and have length > 3
(bookly.py line 84).  Note: the source applies no punctuation filter on
this tier. -/
def nounCandidates (d : Doc) : List String :=
  ((d.tokens.filter
      (fun t => t.pos == "NOUN" && !t.isStop && decide (3 < t.text.length))).map
    Token.text).dedup

/-- Tier 3: non-stop-word, non-punctuation tokens of length > 2
(bookly.py line 89). -/
def wordCandidates (d : Doc) : List String :=
  ((d.tokens.filter
      (fun t => !t.isStop && !t.isPunct && decide (2 < t.text.length))).map
    Token.text).dedup

/-- The candidate pool: tier 1 if it has at least 4 entries, otherwise
tier 2 if it has at least 4 entries, otherwise tier 3
(bookly.py lines 79-90). -/
def candidatePool (d : Doc) : List String :=
  if (entityCandidates d).length < 4 then
    if (nounCandidates d).length < 4 then wordCandidates d else nounCandidates d
  else entityCandidates d

/-- Prompt construction (bookly.py lines 97-107): the first sentence that
contains the answer and has more than 5 whitespace-separated words, with
every occurrence of the answer replaced by the blank marker; the generic
prompt if the loop finds nothing (the source tests the post-replacement
string for emptiness, which is equivalent because a replaced qualifying
sentence is never empty). -/
def promptFor (sents : List String) (ca : String) : String :=
  let qs0 :=
    match sents.find? (fun t => strContains t ca && decide (5 < wordCount t)) with
    | some t => pyReplace t ca "_____"
    | none => ""
  if qs0 = "" then "What is the missing word: _____?" else qs0

/-- generate_quiz_question (bookly.py lines 69-118).  `cSeed` drives
`random.choice`, `dSeed` drives `random.sample(..., 3)`, `shSeed` drives
`random.shuffle`. -/
def generate_quiz_question (text : String) (d : Doc) (cSeed : Nat)
    (dSeed shSeed : Nat → Nat) : Option Question :=
  if pyStrip text = "" then none
  else
    let pool := candidatePool d
    if h4 : pool.length < 4 then none
    else
      let ca := pool.get ⟨cSeed % pool.length, Nat.mod_lt _ (by omega)⟩
      let distractors := sampleK dSeed 3 (pool.filter (fun e => e != ca))
      let choices := shuffleK shSeed (distractors ++ [ca])
      some { question := promptFor d.sents ca, choices := choices, answer := ca }

/-! ## The quiz session and score store (class PDFQuizApp)

Mutable attributes of `PDFQuizApp` relevant to the claims become fields of
`AppState`.  `persisted` models the contents of the quiz_scores.json file
(`save_scores` rewrites it from `scores`).  `gen_requests` counts how often
the session has consulted the question generator, so that "a question is
requested" is visible in the state.  Clicking a Flet button whose
`disabled` flag is set does not run its handler; `submit_clicked` models
the click, `check_quiz_answer` the handler body. -/

/-- Which view `page.controls` currently shows. -/
inductive View
  | main
  | quiz
deriving DecidableEq, Repr

/-- The session state of `PDFQuizApp`. -/
structure AppState where
  extracted_text : String
  max_questions : Nat
  quiz_score : Nat
  quiz_questions_asked : Nat
  submit_disabled : Bool
  timer_pending : Bool
  scores : List String
  persisted : List String
  view : View
  current_question : Option Question
  correct_answer : String
  selected : Option String
  gen_requests : Nat
deriving DecidableEq, Repr

/-- The f-string record `"{score} / {asked}"` (bookly.py line 372). -/
def mkScoreRecord (score asked : Nat) : String :=
  toString score ++ " / " ++ toString asked

/-- handle_quiz_end (bookly.py lines 416-422): append and save the record
when one was produced, then rebuild the main view. -/
def handle_quiz_end (final_score : Option String) (s : AppState) : AppState :=
  match final_score with
  | some r =>
    { s with scores := s.scores ++ [r], persisted := s.scores ++ [r], view := View.main }
  | none => { s with view := View.main }

/-- end_quiz_clicked (bookly.py lines 365-373): cancel any pending timer,
form the score record only when at least one question was asked, and hand
off to `handle_quiz_end`. -/
def end_quiz_clicked (s : AppState) : AppState :=
  let s1 := { s with timer_pending := false }
  let score_str :=
    if 0 < s.quiz_questions_asked then
      some (mkScoreRecord s.quiz_score s.quiz_questions_asked)
    else none
  handle_quiz_end score_str s1

/-- generate_and_display_mcq (bookly.py lines 301-363).  `qres` is the
outcome of the `generate_quiz_question` call the handler makes; the
goal-reached branch returns before consulting the generator. -/
def generate_and_display_mcq (qres : Option Question) (s : AppState) : AppState :=
  if s.max_questions ≤ s.quiz_questions_asked then
    end_quiz_clicked s
  else
    let s1 := { s with submit_disabled := false, gen_requests := s.gen_requests + 1 }
    match qres with
    | some q => { s1 with current_question := some q, correct_answer := q.answer }
    | none => end_quiz_clicked s1

/-- check_quiz_answer (bookly.py lines 281-299): disable the submit button,
count the question, score an exact string match of the selected radio
value against the stored answer (`None` never matches), cancel any old
timer and schedule the advance. -/
def check_quiz_answer (s : AppState) : AppState :=
  let s1 := { s with
    submit_disabled := true,
    quiz_questions_asked := s.quiz_questions_asked + 1 }
  let s2 :=
    if s.selected = some s.correct_answer then
      { s1 with quiz_score := s1.quiz_score + 1 }
    else s1
  { s2 with timer_pending := true }

/-- A click on the Submit button: Flet does not deliver clicks on a
disabled button, so the handler runs only when the button is enabled. -/
def submit_clicked (s : AppState) : AppState :=
  if s.submit_disabled then s else check_quiz_answer s

/-- The two validation failures of start_quiz_clicked. -/
inductive StartError
  | insufficientText
  | invalidQuizLength
deriving DecidableEq, Repr

/-- start_quiz_clicked (bookly.py lines 263-279): reject short extracted
text, then reject a quiz length that is not a positive integer; otherwise
reset the counters, build the quiz view (fresh enabled submit button and
fresh unselected radio group) and immediately request the first question.
`numStr` is the text of the quiz-length entry field. -/
def start_quiz_clicked (qres : Option Question) (numStr : String) (s : AppState) :
    AppState × Option StartError :=
  if (pyStrip s.extracted_text).length < 200 then (s, some StartError.insufficientText)
  else
    match pyInt? numStr with
    | none => (s, some StartError.invalidQuizLength)
    | some n =>
      if n ≤ 0 then (s, some StartError.invalidQuizLength)
      else
        let s1 := { s with
          max_questions := n.toNat,
          quiz_score := 0,
          quiz_questions_asked := 0,
          view := View.quiz,
          submit_disabled := false,
          selected := none,
          current_question := none }
        (generate_and_display_mcq qres s1, none)

/-! ## Score store (bookly.py lines 379-414) -/

/-- Python `r.split('/')[0]`: the characters before the first '/', or the
whole string when there is none. -/
def takeUntilSlash : List Char → List Char
  | [] => []
  | c :: cs => if c = '/' then [] else c :: takeUntilSlash cs

/-- Python `int(r.split('/')[0].strip())`: the parsed "correct" component
of a score record (`pyInt?` strips the whitespace itself). -/
def parseCorrect (r : String) : Option Int :=
  pyInt? (String.mk (takeUntilSlash r.toList))

/-- Python `max(xs, key=...)` over `best :: rest`: any record whose key
fails to parse aborts the whole computation (`ValueError` inside `max`);
ties keep the earliest element. -/
def maxByKeyAux (key : String → Option Int) :
    String → Int → List String → Option String
  | best, _, [] => some best
  | best, bk, x :: xs =>
    match key x with
    | none => none
    | some k =>
      if bk < k then maxByKeyAux key x k xs else maxByKeyAux key best bk xs

/-- get_highest_score (bookly.py lines 379-386): "N/A" on an empty list,
otherwise the record with the maximal parsed "correct" component, with
"N/A" when the `max` call raises because some record does not parse. -/
def get_highest_score (scores : List String) : String :=
  match scores with
  | [] => "N/A"
  | x :: xs =>
    match parseCorrect x with
    | none => "N/A"
    | some k => (maxByKeyAux parseCorrect x k xs).getD "N/A"

/-! ## Text extraction (bookly.py lines 28-34 and 647-672)

An opened PyMuPDF document is modelled as the list of its page texts. -/

/-- Python `pdf_doc[idx].get_text("text")`: page lookup, `none` for an index
outside the document (PyMuPDF raises there; the validated caller below
only ever passes in-range indices). -/
def getPage (pages : List String) (idx : Int) : Option String :=
  if h : 0 ≤ idx ∧ idx.toNat < pages.length then
    some (pages.get ⟨idx.toNat, h.2⟩)
  else none

/-- The list comprehension `[pdf_doc[p-1].get_text("text") for p in
range(start, end+1)]`, with `n` the number of loop iterations. -/
def extractPages (pages : List String) : Int → Nat → Option (List String)
  | _, 0 => some []
  | p, n + 1 => do
    let t ← getPage pages (p - 1)
    let rest ← extractPages pages (p + 1) n
    pure (t :: rest)

/-- extract_text_from_pdf (bookly.py lines 28-34): join the page texts of
`range(start_page, end_page + 1)` with no separator; `none` models the
re-raised RuntimeError when a page read fails. -/
def extract_text_from_pdf (pages : List String) (start_page end_page : Int) :
    Option String :=
  (extractPages pages start_page (end_page + 1 - start_page).toNat).map String.join

/-- Result of the extract-button click. -/
inductive ExtractOutcome
  | ok (text : String)
  | invalidRange
  | extractionError
deriving DecidableEq, Repr

/-- extract_text_clicked (bookly.py lines 647-672), reduced to the range
check `1 <= start <= end <= page_count` and the extraction call it
guards. -/
def extract_text_clicked (pages : List String) (start_page end_page : Int) :
    ExtractOutcome :=
  if 1 ≤ start_page ∧ start_page ≤ end_page ∧ end_page ≤ (pages.length : Int) then
    match extract_text_from_pdf pages start_page end_page with
    | some t => ExtractOutcome.ok t
    | none => ExtractOutcome.extractionError
  else ExtractOutcome.invalidRange

/-! ## Spec-side definitions for claim C2

The specification describes tier 2 as "non-stopword, non-punctuation
tokens tagged as common nouns with length > 3"; these definitions follow
those words so they can be compared with the source-derived
`nounCandidates` / `candidatePool` above. -/

/-- Tier 2 as the specification words it, including a punctuation filter
that the source does not apply. -/
def specNounCandidates (d : Doc) : List String :=
  ((d.tokens.filter
      (fun t => t.pos == "NOUN" && !t.isStop && !t.isPunct &&
        decide (3 < t.text.length))).map
    Token.text).dedup

/-- The candidate pool as the specification words it (tier 2 with the
punctuation filter). -/
def specCandidatePool (d : Doc) : List String :=
  if (entityCandidates d).length < 4 then
    if (specNounCandidates d).length < 4 then wordCandidates d
    else specNounCandidates d
  else entityCandidates d

/-! ## Concrete data used by the witness theorems -/

/-- A concrete spaCy analysis used to exercise successful generation. -/
def witnessDoc : Doc :=
  { ents := [⟨"Alice", "PERSON"⟩, ⟨"Bobby", "PERSON"⟩, ⟨"Carol", "GPE"⟩,
             ⟨"David", "ORG"⟩],
    tokens := [],
    sents := ["Alice went to the market early today.", "Hi Alice."] }

/-- A document whose only candidates are punctuation-flagged NOUN tokens:
the source's tier 2 accepts them, the specification's tier 2 does not. -/
def punctDoc : Doc :=
  { ents := [],
    tokens := [⟨"....", "NOUN", false, true⟩, ⟨",,,,", "NOUN", false, true⟩,
               ⟨";;;;", "NOUN", false, true⟩, ⟨"!!!!", "NOUN", false, true⟩],
    sents := [] }

/-- An analysis with too few candidates at every tier. -/
def sparseDoc : Doc :=
  { ents := [⟨"Alice", "PERSON"⟩],
    tokens := [⟨"market", "NOUN", false, false⟩],
    sents := ["Alice went to the market."] }

/-- A concrete in-progress session state. -/
def sessionState : AppState :=
  { extracted_text := "Alice went to the market.",
    max_questions := 5,
    quiz_score := 1,
    quiz_questions_asked := 2,
    submit_disabled := false,
    timer_pending := true,
    scores := ["0 / 1"],
    persisted := ["0 / 1"],
    view := View.quiz,
    current_question := none,
    correct_answer := "Alice",
    selected := none,
    gen_requests := 3 }

/-- Two hundred identical characters: a concrete text long enough to
start a quiz. -/
def longText : String :=
  String.mk (List.replicate 200 'a')

/-- A state holding enough extracted text for a quiz. -/
def richState : AppState :=
  { sessionState with extracted_text := longText }

/-! ## Sampling lemmas -/

/-- Pulling the element at a valid index to the front is a permutation. -/
theorem get_cons_eraseIdx_perm {α : Type} :
    ∀ (l : List α) (i : Nat) (h : i < l.length),
      List.Perm (l.get ⟨i, h⟩ :: l.eraseIdx i) l
  | [], i, h => absurd h (by simp)
  | x :: xs, 0, _ => by simp
  | x :: xs, i + 1, h => by
    have ih := get_cons_eraseIdx_perm xs i (by simpa using h)
    simp only [List.get_cons_succ, List.eraseIdx_cons_succ]
    exact List.Perm.trans (List.Perm.swap x _ _) (List.Perm.cons x ih)

/-- Erasing a valid index shortens the list by one. -/
theorem length_eraseIdx_of_lt {α : Type} (l : List α) (i : Nat) (h : i < l.length) :
    (l.eraseIdx i).length = l.length - 1 := by
  have h1 := (get_cons_eraseIdx_perm l i h).length_eq
  simp only [List.length_cons] at h1
  omega

/-- A sample without replacement is a sub-permutation of the population. -/
theorem sampleK_subperm {α : Type} (f : Nat → Nat) :
    ∀ (k : Nat) (l : List α), List.Subperm (sampleK f k l) l
  | 0, l => by
    simp only [sampleK]
    exact List.nil_subperm
  | _ + 1, [] => by
    simp only [sampleK]
    exact List.nil_subperm
  | k + 1, x :: xs => by
    simp only [sampleK]
    have hi : f k % (x :: xs).length < (x :: xs).length :=
      Nat.mod_lt _ (Nat.succ_pos _)
    obtain ⟨m, hm1, hm2⟩ :=
      sampleK_subperm f k ((x :: xs).eraseIdx (f k % (x :: xs).length))
    refine List.Subperm.trans
      ⟨(x :: xs).get ⟨_, hi⟩ :: m, List.Perm.cons _ hm1, List.Sublist.cons₂ _ hm2⟩
      ?_
    exact (get_cons_eraseIdx_perm (x :: xs) _ hi).subperm

/-- A sample draws `min k (population size)` elements. -/
theorem length_sampleK {α : Type} (f : Nat → Nat) :
    ∀ (k : Nat) (l : List α), (sampleK f k l).length = min k l.length
  | 0, l => by simp [sampleK]
  | _ + 1, [] => by simp [sampleK]
  | k + 1, x :: xs => by
    have hi : f k % (x :: xs).length < (x :: xs).length :=
      Nat.mod_lt _ (Nat.succ_pos _)
    have hlen := length_eraseIdx_of_lt (x :: xs) (f k % (x :: xs).length) hi
    simp only [List.length_cons] at hlen
    simp only [sampleK, List.length_cons]
    rw [length_sampleK f k, hlen]
    omega

/-- The shuffle model is a permutation of its input. -/
theorem shuffleK_perm {α : Type} (g : Nat → Nat) (l : List α) :
    List.Perm (shuffleK g l) l := by
  have h1 := sampleK_subperm g l.length l
  have h2 := length_sampleK g l.length l
  exact h1.perm_of_length_le (by omega)

/-- Removing one element of a duplicate-free list by filtering shortens it
by exactly one. -/
theorem length_filter_ne_of_nodup {α : Type} [DecidableEq α] {a : α} :
    ∀ {l : List α}, l.Nodup → a ∈ l →
      (l.filter (fun x => x != a)).length = l.length - 1
  | [], _, ha => absurd ha (List.not_mem_nil a)
  | x :: xs, hl, ha => by
    obtain ⟨hx, hxs⟩ := List.nodup_cons.mp hl
    rcases List.mem_cons.mp ha with rfl | hmem
    · rw [List.filter_cons_of_neg (by simp)]
      rw [List.filter_eq_self.mpr]
      · simp
      · intro b hb
        simp only [bne_iff_ne, ne_eq, decide_eq_true_eq]
        intro hbx
        exact hx (hbx ▸ hb)
    · have hxa : x ≠ a := fun e => hx (e ▸ hmem)
      rw [List.filter_cons_of_pos (by simpa using hxa)]
      have h1 := length_filter_ne_of_nodup hxs hmem
      have h2 : 0 < xs.length := List.length_pos.mpr (List.ne_nil_of_mem hmem)
      simp only [List.length_cons, h1]
      omega

/-! ## Candidate-pool lemmas -/

/-- The candidate pool never holds duplicates: every tier is deduplicated. -/
theorem candidatePool_nodup (d : Doc) : (candidatePool d).Nodup := by
  unfold candidatePool
  split
  · split
    · exact List.nodup_dedup _
    · exact List.nodup_dedup _
  · exact List.nodup_dedup _

/-- Every candidate has length at least 2: tier 1 filters trimmed length
> 1, tier 2 token length > 3, tier 3 token length > 2. -/
theorem one_lt_length_of_mem_candidatePool {d : Doc} {c : String}
    (h : c ∈ candidatePool d) : 1 < c.length := by
  unfold candidatePool at h
  split at h
  · split at h
    · unfold wordCandidates at h
      rw [List.mem_dedup] at h
      obtain ⟨t, ht, rfl⟩ := List.mem_map.mp h
      have h2 := (List.mem_filter.mp ht).2
      simp only [Bool.and_eq_true, decide_eq_true_eq] at h2
      omega
    · unfold nounCandidates at h
      rw [List.mem_dedup] at h
      obtain ⟨t, ht, rfl⟩ := List.mem_map.mp h
      have h2 := (List.mem_filter.mp ht).2
      simp only [Bool.and_eq_true, decide_eq_true_eq] at h2
      omega
  · unfold entityCandidates at h
    rw [List.mem_dedup] at h
    have h2 := (List.mem_filter.mp h).2
    simp only [decide_eq_true_eq] at h2
    omega

/-! ## Characterization of a successful generation -/

/-- A non-empty replacement text keeps a non-empty string non-empty. -/
theorem replaceAll_ne_nil {pat rep s : List Char}
    (hs : s ≠ []) (hrep : rep ≠ []) : replaceAll pat rep s ≠ [] := by
  match s with
  | [] => exact absurd rfl hs
  | c :: cs =>
    show replaceAllFuel pat rep (c :: cs).length (c :: cs) ≠ []
    rw [List.length_cons, replaceAllFuel]
    split
    · simp [hrep]
    · simp

/-- Replacing with the blank marker never returns the empty string on a
non-empty input. -/
theorem pyReplace_ne_empty {s pat : String} (hs : s ≠ "") :
    pyReplace s pat "_____" ≠ "" := by
  intro hcon
  have hdata : replaceAll pat.toList "_____".toList s.toList = [] :=
    congrArg String.data hcon
  have hsl : s.toList ≠ [] := by
    intro h0
    exact hs (String.ext h0)
  exact replaceAll_ne_nil hsl (by decide) hdata

/-- If a pattern with at least one character occurs in `l`, then `l` is
non-empty. -/
theorem ne_nil_of_listContains {pat l : List Char}
    (h : listContains pat l = true) (hpat : pat ≠ []) : l ≠ [] := by
  intro hl
  subst hl
  rw [listContains] at h
  exact hpat (List.isEmpty_iff.mp h)

/-- Everything `generate_quiz_question` guarantees about a returned
question, in terms of the source-derived candidate pool, sampling model
and prompt builder. -/
theorem generate_props {text : String} {d : Doc} {cSeed : Nat}
    {dSeed shSeed : Nat → Nat} {q : Question}
    (h : generate_quiz_question text d cSeed dSeed shSeed = some q) :
    4 ≤ (candidatePool d).length ∧
    q.answer ∈ candidatePool d ∧
    q.choices.length = 4 ∧
    q.choices.Nodup ∧
    q.answer ∈ q.choices ∧
    (∀ x ∈ q.choices, x ∈ candidatePool d) ∧
    (∀ x ∈ q.choices, x ≠ q.answer →
      x ∈ (candidatePool d).filter (fun e => e != q.answer)) ∧
    q.question = promptFor d.sents q.answer := by
  have hbase : 4 ≤ (candidatePool d).length ∧
      q.answer ∈ candidatePool d ∧
      q.choices =
        shuffleK shSeed
          (sampleK dSeed 3 ((candidatePool d).filter (fun e => e != q.answer)) ++
            [q.answer]) ∧
      q.question = promptFor d.sents q.answer := by
    simp only [generate_quiz_question] at h
    split at h
    · exact absurd h (by simp)
    · split at h
      · exact absurd h (by simp)
      · rename_i h4
        have hq := Option.some.inj h
        subst hq
        exact ⟨by omega, List.get_mem _ _ _, rfl, rfl⟩
  obtain ⟨h4, hmem, hch, hprompt⟩ := hbase
  have hnd : (candidatePool d).Nodup := candidatePool_nodup d
  have hnd' : ((candidatePool d).filter (fun e => e != q.answer)).Nodup :=
    hnd.filter _
  have hlen' : ((candidatePool d).filter (fun e => e != q.answer)).length =
      (candidatePool d).length - 1 := length_filter_ne_of_nodup hnd hmem
  have hsub : List.Subperm
      (sampleK dSeed 3 ((candidatePool d).filter (fun e => e != q.answer)))
      ((candidatePool d).filter (fun e => e != q.answer)) :=
    sampleK_subperm dSeed 3 _
  have hdisnd : (sampleK dSeed 3
      ((candidatePool d).filter (fun e => e != q.answer))).Nodup := by
    obtain ⟨m, hm1, hm2⟩ := hsub
    exact hm1.nodup_iff.mp (hm2.nodup hnd')
  have hdissubset : ∀ x ∈ sampleK dSeed 3
      ((candidatePool d).filter (fun e => e != q.answer)),
      x ∈ (candidatePool d).filter (fun e => e != q.answer) :=
    fun x hx => hsub.subset hx
  have hdislen : (sampleK dSeed 3
      ((candidatePool d).filter (fun e => e != q.answer))).length = 3 := by
    have hl := length_sampleK dSeed 3
      ((candidatePool d).filter (fun e => e != q.answer))
    omega
  have hnotmem : q.answer ∉ sampleK dSeed 3
      ((candidatePool d).filter (fun e => e != q.answer)) := by
    intro hin
    have h1 := (List.mem_filter.mp (hdissubset _ hin)).2
    simp at h1
  have hbasend : (sampleK dSeed 3
      ((candidatePool d).filter (fun e => e != q.answer)) ++ [q.answer]).Nodup := by
    rw [List.nodup_append]
    refine ⟨hdisnd, List.nodup_singleton _, ?_⟩
    intro x hx hx1
    rw [List.mem_singleton] at hx1
    subst hx1
    exact hnotmem hx
  have hperm : List.Perm q.choices
      (sampleK dSeed 3 ((candidatePool d).filter (fun e => e != q.answer)) ++
        [q.answer]) := by
    rw [hch]
    exact shuffleK_perm shSeed _
  refine ⟨h4, hmem, ?_, ?_, ?_, ?_, ?_, hprompt⟩
  · rw [hperm.length_eq]
    simp [hdislen]
  · exact hperm.nodup_iff.mpr hbasend
  · exact hperm.mem_iff.mpr (by simp)
  · intro x hx
    rcases List.mem_append.mp (hperm.mem_iff.mp hx) with h1 | h1
    · exact List.mem_of_mem_filter (hdissubset _ h1)
    · rw [List.mem_singleton] at h1
      subst h1
      exact hmem
  · intro x hx hne
    rcases List.mem_append.mp (hperm.mem_iff.mp hx) with h1 | h1
    · exact hdissubset _ h1
    · rw [List.mem_singleton] at h1
      exact absurd h1 hne

/-! ## Claim C1 -/

/-- C1: whenever `generate_quiz_question` returns a question, its choices
list holds exactly 4 pairwise-distinct strings, contains the correct
answer, every choice comes from the accepted candidate pool, and every
choice other than the answer is a distractor taken from the pool with the
correct answer filtered out (hence no distractor equals the answer). -/
theorem generate_choices_invariant (text : String) (d : Doc) (cSeed : Nat)
    (dSeed shSeed : Nat → Nat) (q : Question)
    (h : generate_quiz_question text d cSeed dSeed shSeed = some q) :
    q.choices.length = 4 ∧ q.choices.Nodup ∧ q.answer ∈ q.choices ∧
    (∀ x ∈ q.choices, x ∈ candidatePool d) ∧
    (∀ x ∈ q.choices, x ≠ q.answer →
      x ∈ (candidatePool d).filter (fun e => e != q.answer)) := by
  obtain ⟨-, -, h3, h4, h5, h6, h7, -⟩ := generate_props h
  exact ⟨h3, h4, h5, h6, h7⟩

/-- C1 witness: the invariant checked on a concrete generated question. -/
theorem generate_choices_invariant_witness :
    (Question.mk "_____ went to the market early today."
        ["Bobby", "Carol", "David", "Alice"] "Alice").choices.length = 4 ∧
    (Question.mk "_____ went to the market early today."
        ["Bobby", "Carol", "David", "Alice"] "Alice").choices.Nodup ∧
    (Question.mk "_____ went to the market early today."
        ["Bobby", "Carol", "David", "Alice"] "Alice").answer ∈
      (Question.mk "_____ went to the market early today."
        ["Bobby", "Carol", "David", "Alice"] "Alice").choices ∧
    (∀ x ∈ (Question.mk "_____ went to the market early today."
        ["Bobby", "Carol", "David", "Alice"] "Alice").choices,
      x ∈ candidatePool witnessDoc) ∧
    (∀ x ∈ (Question.mk "_____ went to the market early today."
        ["Bobby", "Carol", "David", "Alice"] "Alice").choices,
      x ≠ (Question.mk "_____ went to the market early today."
        ["Bobby", "Carol", "David", "Alice"] "Alice").answer →
      x ∈ (candidatePool witnessDoc).filter
        (fun e => e != (Question.mk "_____ went to the market early today."
          ["Bobby", "Carol", "David", "Alice"] "Alice").answer)) :=
  generate_choices_invariant "some text" witnessDoc 0 (fun _ => 0) (fun _ => 0)
    (Question.mk "_____ went to the market early today."
      ["Bobby", "Carol", "David", "Alice"] "Alice")
    (by decide)

/-! ## Claim C2 -/

/-- C2 counterexample: the claimed tier-2 filter ("non-stopword,
non-punctuation common-noun tokens") disagrees with the source, which
applies no punctuation filter on tier 2.  On `punctDoc` the claimed pool
stays below 4 candidates at every tier — so the claim predicts no
question — while the source's pool has 4 entries and generation
succeeds. -/
theorem tier2_punct_filter_deviation :
    candidatePool punctDoc ≠ specCandidatePool punctDoc ∧
    (specCandidatePool punctDoc).length < 4 ∧
    (specNounCandidates punctDoc).length < 4 ∧
    4 ≤ (candidatePool punctDoc).length ∧
    (generate_quiz_question "x" punctDoc 0 (fun _ => 0) (fun _ => 0)).isSome
      = true := by
  decide

/-- C2 (amended): the pool is built in fixed priority order — named
entities of the accepted labels (deduplicated by stripped text, stripped
length > 1); else NOUN-tagged non-stop-word tokens of length > 3 (with no
punctuation filter on this tier, deviating from the claim); else
non-stop-word non-punctuation tokens of length > 2 — a tier being used
only when the previous one has fewer than 4 unique strings, and the answer
and all choices are drawn from the resulting pool. -/
theorem candidate_pool_tiers (d : Doc) (text : String) (cSeed : Nat)
    (dSeed shSeed : Nat → Nat) (q : Question) :
    (∀ x, x ∈ entityCandidates d ↔
      ∃ e ∈ d.ents, e.label ∈ entityLabels ∧ 1 < (pyStrip e.text).length ∧
        x = pyStrip e.text) ∧
    (∀ x, x ∈ nounCandidates d ↔
      ∃ t ∈ d.tokens, t.pos = "NOUN" ∧ t.isStop = false ∧ 3 < t.text.length ∧
        x = t.text) ∧
    (∀ x, x ∈ wordCandidates d ↔
      ∃ t ∈ d.tokens, t.isStop = false ∧ t.isPunct = false ∧
        2 < t.text.length ∧ x = t.text) ∧
    (4 ≤ (entityCandidates d).length → candidatePool d = entityCandidates d) ∧
    ((entityCandidates d).length < 4 → 4 ≤ (nounCandidates d).length →
      candidatePool d = nounCandidates d) ∧
    ((entityCandidates d).length < 4 → (nounCandidates d).length < 4 →
      candidatePool d = wordCandidates d) ∧
    (generate_quiz_question text d cSeed dSeed shSeed = some q →
      q.answer ∈ candidatePool d ∧ ∀ x ∈ q.choices, x ∈ candidatePool d) := by
  refine ⟨?_, ?_, ?_, ?_, ?_, ?_, ?_⟩
  · intro x
    constructor
    · intro hx
      rw [entityCandidates, List.mem_dedup] at hx
      obtain ⟨hmap, hp⟩ := List.mem_filter.mp hx
      obtain ⟨e, he, rfl⟩ := List.mem_map.mp hmap
      obtain ⟨hent, hg⟩ := List.mem_filter.mp he
      exact ⟨e, hent, of_decide_eq_true hg, of_decide_eq_true hp, rfl⟩
    · rintro ⟨e, he, hlab, hlen, rfl⟩
      rw [entityCandidates, List.mem_dedup]
      exact List.mem_filter.mpr
        ⟨List.mem_map.mpr ⟨e, List.mem_filter.mpr ⟨he, decide_eq_true hlab⟩, rfl⟩,
          decide_eq_true hlen⟩
  · intro x
    constructor
    · intro hx
      rw [nounCandidates, List.mem_dedup] at hx
      obtain ⟨t, ht, rfl⟩ := List.mem_map.mp hx
      obtain ⟨htok, hp⟩ := List.mem_filter.mp ht
      simp only [Bool.and_eq_true, beq_iff_eq, Bool.not_eq_true',
        decide_eq_true_eq] at hp
      exact ⟨t, htok, hp.1.1, hp.1.2, hp.2, rfl⟩
    · rintro ⟨t, ht, hpos, hstop, hlen, rfl⟩
      rw [nounCandidates, List.mem_dedup]
      refine List.mem_map.mpr ⟨t, List.mem_filter.mpr ⟨ht, ?_⟩, rfl⟩
      simp [hpos, hstop, hlen]
  · intro x
    constructor
    · intro hx
      rw [wordCandidates, List.mem_dedup] at hx
      obtain ⟨t, ht, rfl⟩ := List.mem_map.mp hx
      obtain ⟨htok, hp⟩ := List.mem_filter.mp ht
      simp only [Bool.and_eq_true, Bool.not_eq_true',
        decide_eq_true_eq] at hp
      exact ⟨t, htok, hp.1.1, hp.1.2, hp.2, rfl⟩
    · rintro ⟨t, ht, hstop, hpunct, hlen, rfl⟩
      rw [wordCandidates, List.mem_dedup]
      refine List.mem_map.mpr ⟨t, List.mem_filter.mpr ⟨ht, ?_⟩, rfl⟩
      simp [hstop, hpunct, hlen]
  · intro h4
    rw [candidatePool, if_neg (by omega)]
  · intro h1 h2
    rw [candidatePool, if_pos h1, if_neg (by omega)]
  · intro h1 h2
    rw [candidatePool, if_pos h1, if_pos h2]
  · intro h
    obtain ⟨-, hmem, -, -, -, hsub, -, -⟩ := generate_props h
    exact ⟨hmem, hsub⟩

/-- C2 witness: the tier characterizations and tier selection exercised on
a concrete document whose entity tier is accepted. -/
theorem candidate_pool_tiers_witness :
    candidatePool witnessDoc = entityCandidates witnessDoc ∧
    "Alice" ∈ entityCandidates witnessDoc := by
  have h := candidate_pool_tiers witnessDoc "some text" 0 (fun _ => 0)
    (fun _ => 0)
    (Question.mk "_____ went to the market early today."
      ["Bobby", "Carol", "David", "Alice"] "Alice")
  refine ⟨h.2.2.2.1 (by decide), ?_⟩
  exact (h.1 "Alice").mpr
    ⟨⟨"Alice", "PERSON"⟩, by decide, by decide, by decide, by decide⟩

/-! ## Session-handler unfolding lemmas -/

/-- All observable effects of `end_quiz_clicked` on the state. -/
theorem end_quiz_clicked_fields (s : AppState) :
    (end_quiz_clicked s).view = View.main ∧
    (end_quiz_clicked s).timer_pending = false ∧
    (end_quiz_clicked s).scores =
      (if 0 < s.quiz_questions_asked then
        s.scores ++ [mkScoreRecord s.quiz_score s.quiz_questions_asked]
      else s.scores) ∧
    (end_quiz_clicked s).persisted =
      (if 0 < s.quiz_questions_asked then
        s.scores ++ [mkScoreRecord s.quiz_score s.quiz_questions_asked]
      else s.persisted) ∧
    (end_quiz_clicked s).quiz_score = s.quiz_score ∧
    (end_quiz_clicked s).quiz_questions_asked = s.quiz_questions_asked := by
  unfold end_quiz_clicked handle_quiz_end
  by_cases h : 0 < s.quiz_questions_asked
  · simp [h]
  · simp [h]

/-- With the goal already reached, the handler ends the quiz before
consulting the generator. -/
theorem generate_and_display_goal_eq (qres : Option Question) (s : AppState)
    (h : s.max_questions ≤ s.quiz_questions_asked) :
    generate_and_display_mcq qres s = end_quiz_clicked s := by
  unfold generate_and_display_mcq
  simp [h]

/-- Below the goal, a failed generation ends the quiz (after re-enabling
the submit button and counting the generator consultation). -/
theorem generate_and_display_none_eq (s : AppState)
    (h : ¬s.max_questions ≤ s.quiz_questions_asked) :
    generate_and_display_mcq none s =
      end_quiz_clicked
        { s with submit_disabled := false,
                 gen_requests := s.gen_requests + 1 } := by
  unfold generate_and_display_mcq
  simp [h]

/-- Below the goal, a successful generation installs the new question. -/
theorem generate_and_display_some_eq (q : Question) (s : AppState)
    (h : ¬s.max_questions ≤ s.quiz_questions_asked) :
    generate_and_display_mcq (some q) s =
      { s with submit_disabled := false,
               gen_requests := s.gen_requests + 1,
               current_question := some q,
               correct_answer := q.answer } := by
  unfold generate_and_display_mcq
  simp [h]

/-! ## Claim C3 -/

/-- C3: on empty/whitespace-only text, and whenever the accepted candidate
tier still has fewer than 4 unique strings, `generate_quiz_question`
returns `none` — a value, not an exception (the embedding is total) — and
the quiz-session caller `generate_and_display_mcq` turns a `none` result
into a normal end of the quiz: it returns to the main view with the timer
cancelled. -/
theorem generate_failure_yields_none (text : String) (d : Doc) (cSeed : Nat)
    (dSeed shSeed : Nat → Nat) (s : AppState) :
    (pyStrip text = "" ∨ (candidatePool d).length < 4 →
      generate_quiz_question text d cSeed dSeed shSeed = none) ∧
    ((generate_and_display_mcq none s).view = View.main ∧
      (generate_and_display_mcq none s).timer_pending = false) := by
  constructor
  · rintro (h | h)
    · simp [generate_quiz_question, h]
    · by_cases htext : pyStrip text = ""
      · simp [generate_quiz_question, htext]
      · simp [generate_quiz_question, htext, h]
  · by_cases hgoal : s.max_questions ≤ s.quiz_questions_asked
    · rw [generate_and_display_goal_eq none s hgoal]
      have h1 := end_quiz_clicked_fields s
      exact ⟨h1.1, h1.2.1⟩
    · rw [generate_and_display_none_eq s hgoal]
      have h1 := end_quiz_clicked_fields
        { s with submit_disabled := false,
                 gen_requests := s.gen_requests + 1 }
      exact ⟨h1.1, h1.2.1⟩

/-- C3 witness: generation fails on a sparse analysis and on whitespace
text, and the caller ends the quiz normally on a concrete state. -/
theorem generate_failure_yields_none_witness :
    generate_quiz_question "Alice went to the market." sparseDoc 0
      (fun _ => 0) (fun _ => 0) = none ∧
    generate_quiz_question "   " witnessDoc 0 (fun _ => 0) (fun _ => 0) = none ∧
    (generate_and_display_mcq none sessionState).view = View.main ∧
    (generate_and_display_mcq none sessionState).timer_pending = false := by
  refine ⟨?_, ?_, ?_, ?_⟩
  · exact (generate_failure_yields_none "Alice went to the market." sparseDoc 0
      (fun _ => 0) (fun _ => 0) sessionState).1 (Or.inr (by decide))
  · exact (generate_failure_yields_none "   " witnessDoc 0
      (fun _ => 0) (fun _ => 0) sessionState).1 (Or.inl (by decide))
  · exact (generate_failure_yields_none "x" witnessDoc 0
      (fun _ => 0) (fun _ => 0) sessionState).2.1
  · exact (generate_failure_yields_none "x" witnessDoc 0
      (fun _ => 0) (fun _ => 0) sessionState).2.2

/-! ## Claim C4 -/

/-- C4: on success the prompt comes from the first sentence (in document
order) that contains the answer's exact surface form as a substring and
has more than 5 whitespace-separated words, with every occurrence of the
answer replaced by the blank marker (Python replace-all semantics); when
no sentence qualifies, the prompt is the generic missing-word prompt. -/
theorem prompt_construction (text : String) (d : Doc) (cSeed : Nat)
    (dSeed shSeed : Nat → Nat) (q : Question)
    (h : generate_quiz_question text d cSeed dSeed shSeed = some q) :
    (∀ s, d.sents.find?
        (fun t => strContains t q.answer && decide (5 < wordCount t)) = some s →
      q.question = pyReplace s q.answer "_____") ∧
    (d.sents.find?
        (fun t => strContains t q.answer && decide (5 < wordCount t)) = none →
      q.question = "What is the missing word: _____?") := by
  obtain ⟨-, hmem, -, -, -, -, -, hq⟩ := generate_props h
  have hans : 1 < q.answer.length := one_lt_length_of_mem_candidatePool hmem
  have hansne : q.answer.toList ≠ [] := by
    intro h0
    have h1 : q.answer.toList.length = q.answer.length := rfl
    rw [h0] at h1
    simp at h1
    omega
  constructor
  · intro s hs
    rw [hq]
    simp only [promptFor, hs]
    rw [if_neg]
    apply pyReplace_ne_empty
    have hfind := List.find?_some hs
    rw [Bool.and_eq_true] at hfind
    intro hse
    subst hse
    have h2 := ne_nil_of_listContains (l := "".toList) hfind.1 hansne
    simp at h2
  · intro hs
    rw [hq]
    simp [promptFor, hs]

/-- C4 witness: the prompt equals the replace-all of the first qualifying
sentence on a concrete generated question. -/
theorem prompt_construction_witness :
    (Question.mk "_____ went to the market early today."
        ["Bobby", "Carol", "David", "Alice"] "Alice").question =
      pyReplace "Alice went to the market early today." "Alice" "_____" :=
  (prompt_construction "some text" witnessDoc 0 (fun _ => 0) (fun _ => 0)
      (Question.mk "_____ went to the market early today."
        ["Bobby", "Carol", "David", "Alice"] "Alice")
      (by decide)).1
    "Alice went to the market early today." (by decide)

/-! ## Claims C5, C6, C7, C10 -/

/-- All observable effects of the `check_quiz_answer` handler body. -/
theorem check_quiz_answer_fields (s : AppState) :
    (check_quiz_answer s).submit_disabled = true ∧
    (check_quiz_answer s).quiz_questions_asked = s.quiz_questions_asked + 1 ∧
    (check_quiz_answer s).timer_pending = true ∧
    (check_quiz_answer s).quiz_score =
      (if s.selected = some s.correct_answer then s.quiz_score + 1
       else s.quiz_score) := by
  unfold check_quiz_answer
  by_cases h : s.selected = some s.correct_answer <;> simp [h]

/-- C5: starting a quiz on text whose stripped length is below 200 fails
with the insufficient-text error and leaves the state untouched; a quiz
length that is not a positive integer fails with the invalid-length error
and leaves the state untouched (no reset, no view change, no question
requested); when both preconditions hold, score and questionsAsked are
reset to 0, the target is installed, and the first question is requested
at once. -/
theorem start_quiz_validation (qres : Option Question) (numStr : String)
    (s : AppState) :
    ((pyStrip s.extracted_text).length < 200 →
      start_quiz_clicked qres numStr s = (s, some StartError.insufficientText)) ∧
    (200 ≤ (pyStrip s.extracted_text).length → pyInt? numStr = none →
      start_quiz_clicked qres numStr s = (s, some StartError.invalidQuizLength)) ∧
    (200 ≤ (pyStrip s.extracted_text).length → ∀ n : Int,
      pyInt? numStr = some n → n ≤ 0 →
      start_quiz_clicked qres numStr s = (s, some StartError.invalidQuizLength)) ∧
    (200 ≤ (pyStrip s.extracted_text).length → ∀ n : Int,
      pyInt? numStr = some n → 0 < n →
      (start_quiz_clicked qres numStr s).2 = none ∧
      (start_quiz_clicked qres numStr s).1.quiz_score = 0 ∧
      (start_quiz_clicked qres numStr s).1.quiz_questions_asked = 0 ∧
      (start_quiz_clicked qres numStr s).1.max_questions = n.toNat ∧
      (start_quiz_clicked qres numStr s).1.gen_requests = s.gen_requests + 1) := by
  refine ⟨?_, ?_, ?_, ?_⟩
  · intro hshort
    unfold start_quiz_clicked
    rw [if_pos hshort]
  · intro hlong hnone
    unfold start_quiz_clicked
    rw [if_neg (by omega), hnone]
  · intro hlong n hn hle
    unfold start_quiz_clicked
    rw [if_neg (by omega), hn]
    dsimp only
    rw [if_pos hle]
  · intro hlong n hn hpos
    unfold start_quiz_clicked
    rw [if_neg (by omega), hn]
    dsimp only
    rw [if_neg (by omega)]
    cases qres with
    | some q =>
      rw [generate_and_display_some_eq q _ (by simp; omega)]
      simp
    | none =>
      rw [generate_and_display_none_eq _ (by simp; omega)]
      obtain ⟨-, -, -, -, hsc, hqa⟩ := end_quiz_clicked_fields
        { s with max_questions := n.toNat, quiz_score := 0,
                 quiz_questions_asked := 0, view := View.quiz,
                 submit_disabled := false, selected := none,
                 current_question := none, gen_requests := s.gen_requests + 1 }
      refine ⟨rfl, ?_, ?_, ?_, ?_⟩
      · exact hsc
      · exact hqa
      · unfold end_quiz_clicked handle_quiz_end
        split <;> rfl
      · unfold end_quiz_clicked handle_quiz_end
        split <;> rfl

set_option maxRecDepth 4000 in
/-- C5 witness: the three validation outcomes and the reset-and-request
effect on concrete states. -/
theorem start_quiz_validation_witness :
    start_quiz_clicked none "3" sessionState =
      (sessionState, some StartError.insufficientText) ∧
    start_quiz_clicked none "abc" richState =
      (richState, some StartError.invalidQuizLength) ∧
    start_quiz_clicked none "0" richState =
      (richState, some StartError.invalidQuizLength) ∧
    (start_quiz_clicked none "3" richState).2 = none ∧
    (start_quiz_clicked none "3" richState).1.quiz_score = 0 ∧
    (start_quiz_clicked none "3" richState).1.quiz_questions_asked = 0 ∧
    (start_quiz_clicked none "3" richState).1.max_questions = 3 ∧
    (start_quiz_clicked none "3" richState).1.gen_requests =
      sessionState.gen_requests + 1 := by
  have h1 := (start_quiz_validation none "3" sessionState).1 (by decide)
  have h2 := (start_quiz_validation none "abc" richState).2.1 (by decide)
    (by decide)
  have h3 := (start_quiz_validation none "0" richState).2.2.1 (by decide)
    0 (by decide) (by decide)
  have h4 := (start_quiz_validation none "3" richState).2.2.2 (by decide)
    3 (by decide) (by decide)
  exact ⟨h1, h2, h3, h4.1, h4.2.1, h4.2.2.1, h4.2.2.2.1, h4.2.2.2.2⟩

/-- C6: a second click on the Submit button before the next question is
ready is a no-op: the first click disables the button, and a click on a
disabled button does not run the handler, so the composite is idempotent
(in particular score and questionsAsked are unchanged by the second
click). -/
theorem submit_idempotent (s : AppState) :
    submit_clicked (submit_clicked s) = submit_clicked s := by
  by_cases h : s.submit_disabled
  · simp [submit_clicked, h]
  · have h2 : submit_clicked s = check_quiz_answer s := by
      unfold submit_clicked
      rw [if_neg h]
    rw [h2]
    unfold submit_clicked
    rw [if_pos ((check_quiz_answer_fields s).1)]

/-- C7: every transition to the finished state funnels through
`end_quiz_clicked`, which appends exactly one record
`"{score} / {questionsAsked}"` to the score list and persists the whole
list when questionsAsked > 0, and leaves both the list and the persisted
file untouched when questionsAsked = 0; the goal-reached and
content-exhausted finishes of `generate_and_display_mcq` produce exactly
the same score effect. -/
theorem finish_score_record (s : AppState) (qres : Option Question) :
    ((end_quiz_clicked s).scores =
      (if 0 < s.quiz_questions_asked then
        s.scores ++ [mkScoreRecord s.quiz_score s.quiz_questions_asked]
      else s.scores)) ∧
    ((end_quiz_clicked s).persisted =
      (if 0 < s.quiz_questions_asked then
        s.scores ++ [mkScoreRecord s.quiz_score s.quiz_questions_asked]
      else s.persisted)) ∧
    (s.max_questions ≤ s.quiz_questions_asked →
      generate_and_display_mcq qres s = end_quiz_clicked s) ∧
    (¬s.max_questions ≤ s.quiz_questions_asked →
      (generate_and_display_mcq none s).scores =
        (if 0 < s.quiz_questions_asked then
          s.scores ++ [mkScoreRecord s.quiz_score s.quiz_questions_asked]
        else s.scores) ∧
      (generate_and_display_mcq none s).persisted =
        (if 0 < s.quiz_questions_asked then
          s.scores ++ [mkScoreRecord s.quiz_score s.quiz_questions_asked]
        else s.persisted)) := by
  obtain ⟨-, -, hs, hp, -, -⟩ := end_quiz_clicked_fields s
  refine ⟨hs, hp, fun h => generate_and_display_goal_eq qres s h, ?_⟩
  intro h
  rw [generate_and_display_none_eq s h]
  obtain ⟨-, -, hs2, hp2, -, -⟩ := end_quiz_clicked_fields
    { s with submit_disabled := false, gen_requests := s.gen_requests + 1 }
  exact ⟨hs2, hp2⟩

/-- C7 witness: the record append and persist on a concrete session with
two questions asked, and the goal-reached finish on a concrete state. -/
theorem finish_score_record_witness :
    (end_quiz_clicked sessionState).scores = ["0 / 1", "1 / 2"] ∧
    (end_quiz_clicked sessionState).persisted = ["0 / 1", "1 / 2"] ∧
    generate_and_display_mcq none { sessionState with max_questions := 2 } =
      end_quiz_clicked { sessionState with max_questions := 2 } := by
  have h := finish_score_record sessionState none
  have h2 := (finish_score_record { sessionState with max_questions := 2 }
    none).2.2.1 (by decide)
  refine ⟨?_, ?_, h2⟩
  · rw [h.1]
    decide
  · rw [h.2.1]
    decide

/-- C10: submitting with no radio choice selected is not guarded: the
handler still counts the question (questionsAsked increments), the score
is unchanged — exactly as for an incorrect answer, since `None` never
equals the stored answer string — and the advance timer is scheduled. -/
theorem submit_without_selection (s : AppState)
    (hsel : s.selected = none) (hen : s.submit_disabled = false) :
    (submit_clicked s).quiz_questions_asked = s.quiz_questions_asked + 1 ∧
    (submit_clicked s).quiz_score = s.quiz_score ∧
    (submit_clicked s).timer_pending = true ∧
    (submit_clicked s).submit_disabled = true := by
  have hne : ¬(s.selected = some s.correct_answer) := by simp [hsel]
  have hcl : submit_clicked s = check_quiz_answer s := by
    unfold submit_clicked
    rw [if_neg (by simp [hen])]
  rw [hcl]
  obtain ⟨h1, h2, h3, h4⟩ := check_quiz_answer_fields s
  rw [h4, if_neg hne]
  exact ⟨h2, rfl, h3, h1⟩

/-- C10 witness: the unguarded no-selection submission on a concrete
state. -/
theorem submit_without_selection_witness :
    0 < 1 ∧
    (submit_clicked sessionState).quiz_questions_asked =
      sessionState.quiz_questions_asked + 1 ∧
    (submit_clicked sessionState).quiz_score = sessionState.quiz_score ∧
    (submit_clicked sessionState).timer_pending = true ∧
    (submit_clicked sessionState).submit_disabled = true := by
  have h := submit_without_selection sessionState (by decide) (by decide)
  exact ⟨by decide, h.1, h.2.1, h.2.2.1, h.2.2.2⟩

/-! ## Claim C8 -/

/-- If any record's key fails to parse, the whole `max` computation
aborts (Python raises `ValueError` inside `max`). -/
theorem maxByKeyAux_none {key : String → Option Int} :
    ∀ {xs : List String} {best : String} {bk : Int},
      (∃ r ∈ xs, key r = none) → maxByKeyAux key best bk xs = none
  | [], _, _, h => by simp at h
  | x :: xs, best, bk, h => by
    obtain ⟨r, hr, hrn⟩ := h
    rcases List.mem_cons.mp hr with rfl | hr2
    · rw [maxByKeyAux, hrn]
    · cases hkx : key x with
      | none => rw [maxByKeyAux, hkx]
      | some k =>
        rw [maxByKeyAux, hkx]
        dsimp only
        split
        · exact maxByKeyAux_none ⟨r, hr2, hrn⟩
        · exact maxByKeyAux_none ⟨r, hr2, hrn⟩

/-- If every remaining key parses, `max` returns an element whose key is
maximal (the earliest such element on ties). -/
theorem maxByKeyAux_some {key : String → Option Int} :
    ∀ {xs : List String} {best : String} {bk : Int},
      key best = some bk → (∀ r ∈ xs, (key r).isSome) →
      ∃ y ky, maxByKeyAux key best bk xs = some y ∧ y ∈ best :: xs ∧
        key y = some ky ∧ bk ≤ ky ∧
        ∀ r ∈ xs, ∀ kr, key r = some kr → kr ≤ ky
  | [], best, bk, hb, _ =>
    ⟨best, bk, by rw [maxByKeyAux], by simp, hb, le_refl _, by simp⟩
  | x :: xs, best, bk, hb, hall => by
    have hx := hall x (by simp)
    rw [Option.isSome_iff_exists] at hx
    obtain ⟨k, hk⟩ := hx
    rw [maxByKeyAux, hk]
    dsimp only
    by_cases hlt : bk < k
    · rw [if_pos hlt]
      obtain ⟨y, ky, h1, h2, h3, h4, h5⟩ :=
        maxByKeyAux_some hk (fun r hr => hall r (List.mem_cons_of_mem x hr))
      refine ⟨y, ky, h1, ?_, h3, by omega, ?_⟩
      · rcases List.mem_cons.mp h2 with rfl | hy
        · simp
        · simp [hy]
      · intro r hr kr hkr
        rcases List.mem_cons.mp hr with rfl | hr2
        · rw [hkr] at hk
          have he := Option.some.inj hk
          omega
        · exact h5 r hr2 kr hkr
    · rw [if_neg hlt]
      obtain ⟨y, ky, h1, h2, h3, h4, h5⟩ :=
        maxByKeyAux_some hb (fun r hr => hall r (List.mem_cons_of_mem x hr))
      refine ⟨y, ky, h1, ?_, h3, h4, ?_⟩
      · rcases List.mem_cons.mp h2 with rfl | hy
        · simp
        · simp [hy]
      · intro r hr kr hkr
        rcases List.mem_cons.mp hr with rfl | hr2
        · rw [hkr] at hk
          have he := Option.some.inj hk
          omega
        · exact h5 r hr2 kr hkr

/-- C8 counterexample: the claim says the no-record result occurs only on
an empty store or when all records are unparseable, but one unparseable
record among parseable ones already makes the source return "N/A"
(Python's `max` raises on the first bad key and the handler catches the
`ValueError`). -/
theorem highest_score_any_unparseable_na :
    get_highest_score ["2 / 5", "oops"] = "N/A" ∧
    parseCorrect "2 / 5" = some 2 ∧
    parseCorrect "oops" = none ∧
    (["2 / 5", "oops"] : List String) ≠ [] := by
  decide

/-- C8 (amended): `get_highest_score` returns "N/A" on an empty store and
whenever any record's "correct" component fails to parse; when every
record parses, it returns a stored record whose parsed "correct"
component is maximal; in particular on ["2 / 5", "4 / 5", "1 / 5"] it
returns "4 / 5". -/
theorem highest_score_max_parsed (scores : List String) :
    (scores = [] → get_highest_score scores = "N/A") ∧
    ((∃ r ∈ scores, parseCorrect r = none) →
      get_highest_score scores = "N/A") ∧
    (scores ≠ [] → (∀ r ∈ scores, (parseCorrect r).isSome) →
      get_highest_score scores ∈ scores ∧
      ∀ r ∈ scores, ∀ kr kb, parseCorrect r = some kr →
        parseCorrect (get_highest_score scores) = some kb → kr ≤ kb) ∧
    get_highest_score ["2 / 5", "4 / 5", "1 / 5"] = "4 / 5" := by
  refine ⟨?_, ?_, ?_, by decide⟩
  · intro h
    subst h
    rfl
  · intro ⟨r, hr, hrn⟩
    cases scores with
    | nil => rfl
    | cons x xs =>
      rw [get_highest_score]
      rcases List.mem_cons.mp hr with rfl | hr2
      · rw [hrn]
      · cases hkx : parseCorrect x with
        | none => rfl
        | some k =>
          dsimp only
          rw [maxByKeyAux_none ⟨r, hr2, hrn⟩]
          rfl
  · intro hne hall
    cases scores with
    | nil => exact absurd rfl hne
    | cons x xs =>
      have hx := hall x (by simp)
      rw [Option.isSome_iff_exists] at hx
      obtain ⟨k, hk⟩ := hx
      obtain ⟨y, ky, h1, h2, h3, h4, h5⟩ :=
        maxByKeyAux_some hk (fun r hr => hall r (List.mem_cons_of_mem x hr))
      have hres : get_highest_score (x :: xs) = y := by
        rw [get_highest_score, hk]
        dsimp only
        rw [h1]
        rfl
      rw [hres]
      refine ⟨h2, ?_⟩
      intro r hr kr kb hkr hkb
      rw [h3] at hkb
      have he := Option.some.inj hkb
      subst he
      rcases List.mem_cons.mp hr with rfl | hr2
      · rw [hkr] at hk
        have he2 := Option.some.inj hk
        omega
      · exact h5 r hr2 kr hkr

/-- C8 witness: the amended behaviour checked on the concrete store from
the specification's example. -/
theorem highest_score_max_parsed_witness :
    get_highest_score ["2 / 5", "4 / 5", "1 / 5"] ∈
      (["2 / 5", "4 / 5", "1 / 5"] : List String) ∧
    get_highest_score [] = "N/A" ∧
    get_highest_score ["2 / 5", "4 / 5", "1 / 5"] = "4 / 5" := by
  have h := highest_score_max_parsed ["2 / 5", "4 / 5", "1 / 5"]
  have h0 := (highest_score_max_parsed []).1 rfl
  exact ⟨(h.2.2.1 (by decide) (by decide)).1, h0, h.2.2.2⟩

/-! ## Claim C9 -/

/-- Within bounds, the page loop collects exactly the slice of the page
list starting at index `p - 1`. -/
theorem extractPages_eq (pages : List String) :
    ∀ (n : Nat) (p : Int), 1 ≤ p → (p - 1).toNat + n ≤ pages.length →
      extractPages pages p n = some ((pages.drop (p - 1).toNat).take n)
  | 0, p, _, _ => by simp [extractPages]
  | n + 1, p, hp, hlen => by
    rw [extractPages]
    have h0 : (0 : Int) ≤ p - 1 := by omega
    have hidx : (p - 1).toNat < pages.length := by omega
    rw [getPage, dif_pos ⟨h0, hidx⟩]
    have hrec := extractPages_eq pages n (p + 1) (by omega) (by omega)
    rw [hrec]
    have harg : (p + 1 - 1).toNat = (p - 1).toNat + 1 := by omega
    rw [harg]
    have hd : pages.drop (p - 1).toNat =
        pages.get ⟨(p - 1).toNat, hidx⟩ :: pages.drop ((p - 1).toNat + 1) := by
      rw [List.drop_eq_getElem_cons hidx]
      rfl
    rw [hd, List.take_succ_cons]
    rfl

/-- C9: for every opened document (its list of page texts) and every pair
with 1 ≤ startPage ≤ endPage ≤ pageCount, the extraction flow returns the
page texts of startPage..endPage concatenated in order with no separator;
any other pair is rejected by the range check with the invalid-range
outcome before extraction runs. -/
theorem extract_range_contract (pages : List String)
    (start_page end_page : Int) :
    (1 ≤ start_page → start_page ≤ end_page →
      end_page ≤ (pages.length : Int) →
      extract_text_clicked pages start_page end_page =
        ExtractOutcome.ok (String.join
          ((pages.drop (start_page - 1).toNat).take
            (end_page + 1 - start_page).toNat))) ∧
    (¬(1 ≤ start_page ∧ start_page ≤ end_page ∧
        end_page ≤ (pages.length : Int)) →
      extract_text_clicked pages start_page end_page =
        ExtractOutcome.invalidRange) := by
  constructor
  · intro h1 h2 h3
    have hext : extract_text_from_pdf pages start_page end_page =
        some (String.join ((pages.drop (start_page - 1).toNat).take
          (end_page + 1 - start_page).toNat)) := by
      unfold extract_text_from_pdf
      rw [extractPages_eq pages _ _ h1 (by omega)]
      rfl
    unfold extract_text_clicked
    rw [if_pos ⟨h1, h2, h3⟩, hext]
  · intro h
    unfold extract_text_clicked
    rw [if_neg h]

/-- C9 witness: a concrete three-page document, one in-range extraction
and one rejected pair. -/
theorem extract_range_contract_witness :
    extract_text_clicked ["pg1 ", "pg2 ", "pg3 "] 1 3 =
      ExtractOutcome.ok "pg1 pg2 pg3 " ∧
    extract_text_clicked ["pg1 ", "pg2 ", "pg3 "] 3 2 =
      ExtractOutcome.invalidRange := by
  have h1 := (extract_range_contract ["pg1 ", "pg2 ", "pg3 "] 1 3).1
    (by decide) (by decide) (by decide)
  have h2 := (extract_range_contract ["pg1 ", "pg2 ", "pg3 "] 3 2).2
    (by decide)
  refine ⟨?_, h2⟩
  rw [h1]
  decide
